import Mathlib

/-!
Verification development for `fmaps.py`, a script that populates the
`IntendedFor` field of BIDS fieldmap JSON sidecars.

Python strings are modelled as `List Char`.  The script reads manifest
files in text mode (universal newlines), so by the time `str.splitlines`
runs, every line boundary in the text is a plain `\n`; `splitlines`
below therefore splits on `\n` with Python's trailing-terminator
behaviour (a trailing newline does not produce a final empty line, and
an empty text yields no lines).

File I/O is modelled explicitly: a filesystem is an association list
from paths to file contents, where a content is either a successfully
parsed JSON mapping (`json.load` succeeds and yields a dict) or raw
text that is not valid structured data (`json.load` raises).  `open`
on a missing path is a FileAccess failure; `json.load` on invalid
content is a ParseError.
-/

namespace Fmaps

/-- A Python string, modelled as its list of characters. -/
abbrev Str : Type := List Char

/-- Auxiliary worker for `splitlines`: `acc` holds the (reversed) characters
of the line currently being scanned. -/
def splitlinesAux (acc : Str) : Str → List Str
  | [] => [acc.reverse]
  | c :: rest =>
      if c = '\n' then
        acc.reverse :: (if rest.isEmpty then [] else splitlinesAux [] rest)
      else
        splitlinesAux (c :: acc) rest

/-- Python `str.splitlines` on text whose line boundaries are `\n`
(the form produced by reading a file in text mode): an empty string has
no lines, and a trailing newline does not contribute an empty line. -/
def splitlines (s : Str) : List Str :=
  if s.isEmpty then [] else splitlinesAux [] s

/-- Python `os.path.basename` (POSIX): the substring after the last `/`. -/
def basename (p : Str) : Str :=
  (p.reverse.takeWhile (fun c => c != '/')).reverse

/-- Python's substring test `pat in s` for strings. -/
def pyIn (pat : Str) : Str → Bool
  | [] => pat.isEmpty
  | c :: rest => pat.isPrefixOf (c :: rest) || pyIn pat rest

/-- `get_dwi_list` from `fmaps.py` (lines 67-90), with the file read
replaced by the manifest's text content: split the manifest into lines,
take each line's basename, keep it when it contains both `sub_id` and
`ses_id`, and append `ses_id + '/' + basename` to the accumulator list.
(The source rebinds `dwi_file = os.path.basename(dwi_file)`; here
`basename dwi_file` is used inline.) -/
def get_dwi_list (dwi_list : Str) (sub_id : Str) (ses_id : Str) : List Str :=
  (splitlines dwi_list).foldl
    (fun dwis dwi_file =>
      if pyIn sub_id (basename dwi_file) && pyIn ses_id (basename dwi_file) then
        dwis ++ [ses_id ++ '/' :: basename dwi_file]
      else dwis)
    []

/-- `get_func_list` from `fmaps.py` (lines 92-116): identical logic to
`get_dwi_list`, applied to the functional-scan manifest. -/
def get_func_list (func_list : Str) (sub_id : Str) (ses_id : Str) : List Str :=
  (splitlines func_list).foldl
    (fun funcs func =>
      if pyIn sub_id (basename func) && pyIn ses_id (basename func) then
        funcs ++ [ses_id ++ '/' :: basename func]
      else funcs)
    []

/-- The filter's retention test: the line's basename contains both
identifiers as substrings. -/
def lineMatches (sub_id : Str) (ses_id : Str) (line : Str) : Bool :=
  pyIn sub_id (basename line) && pyIn ses_id (basename line)

/-- The reference built from a retained line: `ses_id + "/" + basename`. -/
def mkEntry (ses_id : Str) (line : Str) : Str :=
  ses_id ++ '/' :: basename line

/-- The filter loop (fold with an accumulator) equals appending the
map-over-filter of the lines to the initial accumulator. -/
theorem filterFold_eq_append (sub_id ses_id : Str) (lines : List Str) (acc : List Str) :
    lines.foldl
      (fun dwis dwi_file =>
        if pyIn sub_id (basename dwi_file) && pyIn ses_id (basename dwi_file) then
          dwis ++ [ses_id ++ '/' :: basename dwi_file]
        else dwis)
      acc
      = acc ++ (lines.filter (lineMatches sub_id ses_id)).map (mkEntry ses_id) := by
  induction lines generalizing acc with
  | nil => simp
  | cons l ls ih =>
      by_cases h : (pyIn sub_id (basename l) && pyIn ses_id (basename l)) = true
      · simp only [List.foldl_cons, if_pos h, List.filter_cons, lineMatches, h, if_true, ih,
          List.map_cons, mkEntry, List.append_assoc, List.cons_append, List.nil_append]
      · simp only [List.foldl_cons, if_neg h, List.filter_cons, lineMatches, h, if_false, ih,
          Bool.false_eq_true]

/-- `get_dwi_list` maps the entry builder over the matching manifest lines. -/
theorem get_dwi_list_eq_filter_map (m sub_id ses_id : Str) :
    get_dwi_list m sub_id ses_id
      = ((splitlines m).filter (lineMatches sub_id ses_id)).map (mkEntry ses_id) := by
  simpa [get_dwi_list] using filterFold_eq_append sub_id ses_id (splitlines m) []

/-- `get_func_list` maps the entry builder over the matching manifest lines. -/
theorem get_func_list_eq_filter_map (m sub_id ses_id : Str) :
    get_func_list m sub_id ses_id
      = ((splitlines m).filter (lineMatches sub_id ses_id)).map (mkEntry ses_id) := by
  simpa [get_func_list] using filterFold_eq_append sub_id ses_id (splitlines m) []

/-- The empty pattern is a substring of every string. -/
theorem pyIn_nil (s : Str) : pyIn [] s = true := by
  induction s with
  | nil => rfl
  | cons c rest ih => simp [pyIn, List.isPrefixOf]

/-- A JSON value, as produced by Python's `json.load`.  Numeric literals
are kept as their source text (their exact value plays no role here). -/
inductive JsonVal : Type where
  | jnull : JsonVal
  | jbool (b : Bool) : JsonVal
  | jnum (lit : Str) : JsonVal
  | jstr (s : Str) : JsonVal
  | jarr (elems : List JsonVal) : JsonVal
  | jobj (fields : List (Str × JsonVal)) : JsonVal

/-- A parsed JSON sidecar: a Python dict, i.e. an insertion-ordered
association list of string keys to JSON values. -/
abbrev Record : Type := List (Str × JsonVal)

/-- A record parsed from a real JSON file has no duplicate keys. -/
abbrev wellFormed (d : Record) : Prop := (d.map Prod.fst).Nodup

/-- The fixed metadata key written by the merger. -/
def intendedForKey : Str := "IntendedFor".toList

/-- Python dict assignment `d[key] = v`: if `key` is present its value is
replaced in place (position preserved), otherwise the binding is appended
at the end (insertion order). -/
def dictSet : Record → Str → JsonVal → Record
  | [], key, v => [(key, v)]
  | (k, w) :: rest, key, v =>
      if k = key then (k, v) :: rest else (k, w) :: dictSet rest key v

/-- Python dict lookup `d[key]` (first binding wins). -/
def dictLookup : Record → Str → Option JsonVal
  | [], _ => none
  | (k, v) :: rest, key => if k = key then some v else dictLookup rest key

/-- The pure core of `add_intended_for` from `fmaps.py` (lines 118-145):
`json_dict['IntendedFor'] = [func for func in funcs]` on the parsed dict.
The list comprehension is a fresh list of the same strings, in order. -/
def add_intended_for (json_dict : Record) (funcs : List Str) : Record :=
  dictSet json_dict intendedForKey (JsonVal.jarr (funcs.map (fun func => JsonVal.jstr func)))

/-- The content of a file on disk, as seen through `json.load`: either a
JSON mapping (the parse succeeds) or raw text that is not valid
structured data (the parse raises). -/
inductive FileContent : Type where
  | record (d : Record) : FileContent
  | invalid (raw : Str) : FileContent

/-- A filesystem: an association list from paths to file contents. -/
abbrev FS : Type := List (Str × FileContent)

/-- Look a path up in the filesystem. -/
def fsLookup : FS → Str → Option FileContent
  | [], _ => none
  | (p, c) :: rest, q => if p = q then some c else fsLookup rest q

/-- Overwrite the file at a path (`open(path, 'w')` + `json.dump`). -/
def fsWrite : FS → Str → FileContent → FS
  | [], p, c => [(p, c)]
  | (q, c0) :: rest, p, c =>
      if q = p then (q, c) :: rest else (q, c0) :: fsWrite rest p c

/-- `os.path.exists`. -/
def pathExists (fs : FS) (p : Str) : Bool := (fsLookup fs p).isSome

/-- The error kinds of the merger: `open` on a missing path raises a
FileAccess error; `json.load` on invalid content raises a ParseError. -/
inductive MergeError : Type where
  | fileAccess : MergeError
  | parseError : MergeError

/-- `add_intended_for` with its file I/O (lines 141-145 of `fmaps.py`):
open and parse the record at `json_file`; on success set `IntendedFor`
and write the updated dict back; on failure raise without writing.  The
result pairs the filesystem after the call with the error, if any. -/
def add_intended_for_io (fs : FS) (json_file : Str) (funcs : List Str) :
    FS × Option MergeError :=
  match fsLookup fs json_file with
  | none => (fs, some MergeError.fileAccess)
  | some (FileContent.invalid _) => (fs, some MergeError.parseError)
  | some (FileContent.record json_dict) =>
      (fsWrite fs json_file (FileContent.record (add_intended_for json_dict funcs)), none)

/-- One paired-record block of the orchestrator (`fmaps.py` lines
159-169 for `acq-fMRI`, lines 173-182 for `acq-dwi`): if both the AP and
the PA sidecar exist, run the merger on the AP one and then on the PA
one (an exception from the first call aborts before the second);
otherwise touch nothing. -/
def processTag (fs : FS) (ap : Str) (pa : Str) (refs : List Str) :
    FS × Option MergeError :=
  if pathExists fs ap && pathExists fs pa then
    match add_intended_for_io fs ap refs with
    | (fs1, some e) => (fs1, some e)
    | (fs1, none) => add_intended_for_io fs1 pa refs
  else (fs, none)

/-- The orchestrator's run-wide inputs: the source root, the two
manifest texts, and the subject/session tree obtained from
`os.listdir` (directory discovery is an external collaborator). -/
structure Config : Type where
  sourcePath : Str
  funcManifest : Str
  dwiManifest : Str
  tree : List (Str × List Str)

/-- The `fmap` directory of a subject/session
(`SOURCE_PATH + '/' + sub + '/' + ses + '/fmap'`). -/
def fmapDir (cfg : Config) (sub : Str) (ses : Str) : Str :=
  cfg.sourcePath ++ '/' :: sub ++ '/' :: ses ++ "/fmap".toList

/-- A sidecar path inside the `fmap` directory
(`fmap_files_dir + '/' + sub + '_' + ses + '_' + tag`). -/
def fmapJson (cfg : Config) (sub : Str) (ses : Str) (tag : Str) : Str :=
  fmapDir cfg sub ses ++ '/' :: sub ++ '_' :: ses ++ '_' :: tag

/-- The four fixed acquisition-tag suffixes of `fmaps.py`. -/
def acqFmriAP : Str := "acq-fMRI_dir-AP_epi.json".toList

def acqFmriPA : Str := "acq-fMRI_dir-PA_epi.json".toList

def acqDwiAP : Str := "acq-dwi_dir-AP_epi.json".toList

def acqDwiPA : Str := "acq-dwi_dir-PA_epi.json".toList

/-- The body of the orchestrator's inner loop (`fmaps.py` lines
154-182) for one subject/session: filter the functional manifest and
process the `acq-fMRI` pair, then filter the DWI manifest and process
the `acq-dwi` pair; an error aborts (the exception propagates). -/
def processSession (cfg : Config) (fs : FS) (sub : Str) (ses : Str) :
    FS × Option MergeError :=
  match processTag fs (fmapJson cfg sub ses acqFmriAP) (fmapJson cfg sub ses acqFmriPA)
      (get_func_list cfg.funcManifest sub ses) with
  | (fs1, some e) => (fs1, some e)
  | (fs1, none) =>
      processTag fs1 (fmapJson cfg sub ses acqDwiAP) (fmapJson cfg sub ses acqDwiPA)
        (get_dwi_list cfg.dwiManifest sub ses)

/-- The session loop for one subject, aborting on the first error. -/
def runSessions (cfg : Config) (sub : Str) : FS → List Str → FS × Option MergeError
  | fs, [] => (fs, none)
  | fs, ses :: rest =>
      match processSession cfg fs sub ses with
      | (fs1, some e) => (fs1, some e)
      | (fs1, none) => runSessions cfg sub fs1 rest

/-- The subject loop, aborting on the first error. -/
def runSubjects (cfg : Config) : FS → List (Str × List Str) → FS × Option MergeError
  | fs, [] => (fs, none)
  | fs, (sub, sesList) :: rest =>
      match runSessions cfg sub fs sesList with
      | (fs1, some e) => (fs1, some e)
      | (fs1, none) => runSubjects cfg fs1 rest

/-- The whole script body (`fmaps.py` lines 147-183). -/
def runOrchestrator (cfg : Config) (fs : FS) : FS × Option MergeError :=
  runSubjects cfg fs cfg.tree

/-- After `d[k] = v`, looking up `k` yields exactly `v`. -/
theorem dictLookup_dictSet_self (d : Record) (k : Str) (v : JsonVal) :
    dictLookup (dictSet d k v) k = some v := by
  induction d with
  | nil => simp [dictSet, dictLookup]
  | cons kv rest ih =>
      obtain ⟨k0, v0⟩ := kv
      by_cases h : k0 = k
      · simp [dictSet, dictLookup, h]
      · simp [dictSet, dictLookup, h, ih]

/-- After `d[k] = v`, every other key's binding is unchanged. -/
theorem dictLookup_dictSet_ne (d : Record) (k : Str) (v : JsonVal) (q : Str)
    (hq : q ≠ k) : dictLookup (dictSet d k v) q = dictLookup d q := by
  have hkq : ¬ k = q := fun h => hq h.symm
  induction d with
  | nil => simp [dictSet, dictLookup, hkq]
  | cons kv rest ih =>
      obtain ⟨k0, v0⟩ := kv
      by_cases h : k0 = k
      · subst h
        simp [dictSet, dictLookup, hkq]
      · simp [dictSet, dictLookup, h, ih]

/-- Writing the same value at the same key twice equals writing it once. -/
theorem dictSet_dictSet_self (d : Record) (k : Str) (v : JsonVal) :
    dictSet (dictSet d k v) k v = dictSet d k v := by
  induction d with
  | nil => simp [dictSet]
  | cons kv rest ih =>
      obtain ⟨k0, v0⟩ := kv
      by_cases h : k0 = k
      · simp [dictSet, h]
      · simp [dictSet, h, ih]

/-- After writing content `c` at path `p`, looking `p` up yields `c`. -/
theorem fsLookup_fsWrite_self (fs : FS) (p : Str) (c : FileContent) :
    fsLookup (fsWrite fs p c) p = some c := by
  induction fs with
  | nil => simp [fsWrite, fsLookup]
  | cons qc rest ih =>
      obtain ⟨q, c0⟩ := qc
      by_cases h : q = p
      · simp [fsWrite, fsLookup, h]
      · simp [fsWrite, fsLookup, h, ih]

/-- Writing at path `p` leaves every other path's content unchanged. -/
theorem fsLookup_fsWrite_ne (fs : FS) (p : Str) (c : FileContent) (q : Str)
    (hq : q ≠ p) : fsLookup (fsWrite fs p c) q = fsLookup fs q := by
  have hpq : ¬ p = q := fun h => hq h.symm
  induction fs with
  | nil => simp [fsWrite, fsLookup, hpq]
  | cons pc rest ih =>
      obtain ⟨p0, c0⟩ := pc
      by_cases h : p0 = p
      · subst h
        simp [fsWrite, fsLookup, hpq]
      · simp [fsWrite, fsLookup, h, ih]

/-- When both paired sidecars exist and parse, `processTag` rewrites
first the AP record and then the PA record, each with `IntendedFor`
set, and reports no error. -/
theorem processTag_both (fs : FS) (ap pa : Str) (refs : List Str)
    (dA dB : Record) (hne : ap ≠ pa)
    (hA : fsLookup fs ap = some (FileContent.record dA))
    (hB : fsLookup fs pa = some (FileContent.record dB)) :
    processTag fs ap pa refs =
      (fsWrite (fsWrite fs ap (FileContent.record (add_intended_for dA refs)))
        pa (FileContent.record (add_intended_for dB refs)), none) := by
  have hex : (pathExists fs ap && pathExists fs pa) = true := by
    simp [pathExists, hA, hB]
  have hB1 : fsLookup (fsWrite fs ap (FileContent.record (add_intended_for dA refs))) pa
      = some (FileContent.record dB) := by
    rw [fsLookup_fsWrite_ne fs ap _ pa (fun h => hne h.symm)]
    exact hB
  simp [processTag, hex, add_intended_for_io, hA, hB1]

/-- C1: for every manifest text and non-empty subject and session
identifiers, the functional filter's output contains an entry derived
from a manifest line if and only if the line's basename contains both
identifiers as substrings, and every retained entry equals
`sessionId + "/" + basename` of such a line. -/
theorem c1_filter_retains_iff (m : Str) (sub_id : Str) (ses_id : Str)
    (_hsub : sub_id ≠ []) (_hses : ses_id ≠ []) (entry : Str) :
    entry ∈ get_func_list m sub_id ses_id ↔
      ∃ line, line ∈ splitlines m ∧
        pyIn sub_id (basename line) = true ∧ pyIn ses_id (basename line) = true ∧
        entry = ses_id ++ '/' :: basename line := by
  rw [get_func_list_eq_filter_map]
  constructor
  · intro h
    rcases List.mem_map.mp h with ⟨line, hl, he⟩
    rcases List.mem_filter.mp hl with ⟨hmem, hmatch⟩
    rw [lineMatches, Bool.and_eq_true] at hmatch
    exact ⟨line, hmem, hmatch.1, hmatch.2, he.symm⟩
  · rintro ⟨line, hmem, h1, h2, rfl⟩
    exact List.mem_map.mpr
      ⟨line, List.mem_filter.mpr ⟨hmem, by rw [lineMatches, Bool.and_eq_true]; exact ⟨h1, h2⟩⟩, rfl⟩

/-- Witness for C1 at the data of Scenario 1 of the spec. -/
theorem c1_filter_retains_iff_witness :
    "sub-01".toList ≠ ([] : Str) ∧ "ses-01".toList ≠ ([] : Str) ∧
      ("ses-01/sub-01_ses-01_task-rest_bold.nii.gz".toList
          ∈ get_func_list
              "/data/sub-01_ses-01_task-rest_bold.nii.gz\n/data/sub-02_ses-01_task-rest_bold.nii.gz".toList
              "sub-01".toList "ses-01".toList ↔
        ∃ line, line ∈ splitlines
              "/data/sub-01_ses-01_task-rest_bold.nii.gz\n/data/sub-02_ses-01_task-rest_bold.nii.gz".toList ∧
            pyIn "sub-01".toList (basename line) = true ∧
            pyIn "ses-01".toList (basename line) = true ∧
            "ses-01/sub-01_ses-01_task-rest_bold.nii.gz".toList
              = "ses-01".toList ++ '/' :: basename line) :=
  ⟨by decide, by decide,
    c1_filter_retains_iff _ _ _ (by decide) (by decide) _⟩

/-- C2: the DWI filter returns its entries in the manifest's original
line order, with no sorting and no deduplication (its output is the map
of the entry builder over the filtered line list, so a matching line
occurring twice contributes two entries); an empty manifest yields the
empty list, and a manifest with no matching lines yields the empty list
rather than an error. -/
theorem c2_filter_order_empty (m : Str) (sub_id : Str) (ses_id : Str) :
    (get_dwi_list m sub_id ses_id
        = ((splitlines m).filter (lineMatches sub_id ses_id)).map (mkEntry ses_id))
    ∧ get_dwi_list [] sub_id ses_id = []
    ∧ ((∀ line ∈ splitlines m, lineMatches sub_id ses_id line = false) →
        get_dwi_list m sub_id ses_id = []) := by
  refine ⟨get_dwi_list_eq_filter_map m sub_id ses_id, rfl, ?_⟩
  intro h
  rw [get_dwi_list_eq_filter_map]
  rw [List.filter_eq_nil_iff.mpr (fun line hmem => by simp [h line hmem])]
  rfl

/-- Witness for C2 on a manifest whose single line matches nothing. -/
theorem c2_filter_order_empty_witness :
    get_dwi_list "/data/other.nii.gz".toList "sub-01".toList "ses-01".toList = [] :=
  (c2_filter_order_empty _ _ _).2.2 (by decide)

/-- C3: the merger binds `IntendedFor` to exactly the given reference
list (same strings, same order, duplicates kept), fully replacing any
pre-existing value under that key. -/
theorem c3_merge_sets_intendedfor (d : Record) (refs : List Str) (_hwf : wellFormed d) :
    dictLookup (add_intended_for d refs) intendedForKey
      = some (JsonVal.jarr (refs.map (fun r => JsonVal.jstr r))) :=
  dictLookup_dictSet_self d intendedForKey _

/-- Witness for C3 at the data of Scenario 3 of the spec. -/
theorem c3_merge_sets_intendedfor_witness :
    wellFormed [(intendedForKey, JsonVal.jarr [JsonVal.jstr "old.nii.gz".toList])] ∧
      dictLookup
          (add_intended_for
            [(intendedForKey, JsonVal.jarr [JsonVal.jstr "old.nii.gz".toList])]
            ["new.nii.gz".toList])
          intendedForKey
        = some (JsonVal.jarr (["new.nii.gz".toList].map (fun r => JsonVal.jstr r))) :=
  ⟨by decide, c3_merge_sets_intendedfor _ _ (by decide)⟩

/-- C4: the merger leaves the binding of every key other than
`IntendedFor` unchanged in the rewritten record. -/
theorem c4_merge_preserves_other_keys (d : Record) (refs : List Str)
    (_hwf : wellFormed d) (k : Str) (hk : k ≠ intendedForKey) :
    dictLookup (add_intended_for d refs) k = dictLookup d k :=
  dictLookup_dictSet_ne d intendedForKey _ k hk

/-- Witness for C4 at the data of Scenario 2 of the spec. -/
theorem c4_merge_preserves_other_keys_witness :
    wellFormed [("EchoTime".toList, JsonVal.jnum "0.05".toList)] ∧
      "EchoTime".toList ≠ intendedForKey ∧
      dictLookup
          (add_intended_for [("EchoTime".toList, JsonVal.jnum "0.05".toList)]
            ["ses-01/x.nii.gz".toList])
          "EchoTime".toList
        = dictLookup [("EchoTime".toList, JsonVal.jnum "0.05".toList)] "EchoTime".toList :=
  ⟨by decide, by decide,
    c4_merge_preserves_other_keys _ _ (by decide) _ (by decide)⟩

/-- C5: the merger is idempotent: merging twice with the same reference
list yields the same record as merging once (the serialized file bytes
are a function of the record, so byte-level idempotence follows). -/
theorem c5_merge_idempotent (d : Record) (refs : List Str) (_hwf : wellFormed d) :
    add_intended_for (add_intended_for d refs) refs = add_intended_for d refs :=
  dictSet_dictSet_self d intendedForKey _

/-- Witness for C5 on a record with one unrelated key. -/
theorem c5_merge_idempotent_witness :
    wellFormed [("EchoTime".toList, JsonVal.jnum "0.05".toList)] ∧
      add_intended_for
          (add_intended_for [("EchoTime".toList, JsonVal.jnum "0.05".toList)]
            ["ses-01/a.nii.gz".toList])
          ["ses-01/a.nii.gz".toList]
        = add_intended_for [("EchoTime".toList, JsonVal.jnum "0.05".toList)]
            ["ses-01/a.nii.gz".toList] :=
  ⟨by decide, c5_merge_idempotent _ _ (by decide)⟩

/-- C6: all-or-nothing pairing: if either sidecar of an acquisition-tag
pair is missing, the orchestrator's pair block changes nothing and
reports no error; and if both exist (as parsed records), both are
rewritten with the merged content. -/
theorem c6_all_or_nothing (fs : FS) (ap : Str) (pa : Str) (refs : List Str) :
    ((fsLookup fs ap = none ∨ fsLookup fs pa = none) →
        processTag fs ap pa refs = (fs, none))
    ∧ (∀ dA dB : Record, ap ≠ pa →
        fsLookup fs ap = some (FileContent.record dA) →
        fsLookup fs pa = some (FileContent.record dB) →
        fsLookup (processTag fs ap pa refs).1 ap
            = some (FileContent.record (add_intended_for dA refs))
          ∧ fsLookup (processTag fs ap pa refs).1 pa
            = some (FileContent.record (add_intended_for dB refs))) := by
  constructor
  · intro h
    have hex : (pathExists fs ap && pathExists fs pa) = false := by
      rcases h with h | h <;> simp [pathExists, h]
    simp [processTag, hex]
  · intro dA dB hne hA hB
    rw [processTag_both fs ap pa refs dA dB hne hA hB]
    exact ⟨by rw [fsLookup_fsWrite_ne _ pa _ ap hne, fsLookup_fsWrite_self],
      fsLookup_fsWrite_self _ _ _⟩

/-- Witness for C6: with the PA sidecar missing, nothing is touched
(Scenario 4 of the spec). -/
theorem c6_all_or_nothing_witness :
    processTag [("a.json".toList, FileContent.record [])]
        "a.json".toList "b.json".toList []
      = ([("a.json".toList, FileContent.record [])], none) :=
  (c6_all_or_nothing _ _ _ _).1 (Or.inr rfl)

/-- C7: with an empty reference list and both paired sidecars present,
the merger still runs, so both rewritten records bind `IntendedFor` to
the empty list rather than omitting the key or keeping a prior value. -/
theorem c7_empty_refs_still_merged (fs : FS) (ap : Str) (pa : Str)
    (dA dB : Record) (hne : ap ≠ pa)
    (hA : fsLookup fs ap = some (FileContent.record dA))
    (hB : fsLookup fs pa = some (FileContent.record dB)) :
    ∃ dA2 dB2 : Record,
      fsLookup (processTag fs ap pa []).1 ap = some (FileContent.record dA2)
      ∧ fsLookup (processTag fs ap pa []).1 pa = some (FileContent.record dB2)
      ∧ dictLookup dA2 intendedForKey = some (JsonVal.jarr [])
      ∧ dictLookup dB2 intendedForKey = some (JsonVal.jarr []) := by
  refine ⟨add_intended_for dA [], add_intended_for dB [], ?_, ?_, ?_, ?_⟩
  · rw [processTag_both fs ap pa [] dA dB hne hA hB]
    rw [fsLookup_fsWrite_ne _ pa _ ap hne, fsLookup_fsWrite_self]
  · rw [processTag_both fs ap pa [] dA dB hne hA hB, fsLookup_fsWrite_self]
  · exact dictLookup_dictSet_self dA intendedForKey _
  · exact dictLookup_dictSet_self dB intendedForKey _

/-- Witness for C7 on a two-file filesystem (Scenario 5 of the spec). -/
theorem c7_empty_refs_still_merged_witness :
    ∃ dA2 dB2 : Record,
      fsLookup (processTag
            [("a.json".toList,
                FileContent.record [("EchoTime".toList, JsonVal.jnum "0.05".toList)]),
              ("b.json".toList, FileContent.record [])]
            "a.json".toList "b.json".toList []).1 "a.json".toList
          = some (FileContent.record dA2)
      ∧ fsLookup (processTag
            [("a.json".toList,
                FileContent.record [("EchoTime".toList, JsonVal.jnum "0.05".toList)]),
              ("b.json".toList, FileContent.record [])]
            "a.json".toList "b.json".toList []).1 "b.json".toList
          = some (FileContent.record dB2)
      ∧ dictLookup dA2 intendedForKey = some (JsonVal.jarr [])
      ∧ dictLookup dB2 intendedForKey = some (JsonVal.jarr []) :=
  c7_empty_refs_still_merged _ _ _ _ _ (by decide) rfl rfl

/-- C8: the merger fails with a ParseError exactly when the file's
content is not a valid structured mapping, fails with a FileAccess
error exactly when the path is missing, and on any failure performs no
write, leaving the filesystem unchanged. -/
theorem c8_merge_errors (fs : FS) (path : Str) (refs : List Str) :
    ((add_intended_for_io fs path refs).2 = some MergeError.fileAccess ↔
        fsLookup fs path = none)
    ∧ ((add_intended_for_io fs path refs).2 = some MergeError.parseError ↔
        ∃ raw, fsLookup fs path = some (FileContent.invalid raw))
    ∧ (∀ e, (add_intended_for_io fs path refs).2 = some e →
        (add_intended_for_io fs path refs).1 = fs) := by
  rcases hc : fsLookup fs path with _ | c
  · simp [add_intended_for_io, hc]
  · cases c with
    | record d => simp [add_intended_for_io, hc]
    | invalid raw => simp [add_intended_for_io, hc]

/-- Witness for C8: a missing path yields FileAccess and no write. -/
theorem c8_merge_errors_witness :
    (add_intended_for_io [] "missing.json".toList []).1 = ([] : FS) :=
  (c8_merge_errors [] "missing.json".toList []).2.2 MergeError.fileAccess rfl

/-- C9: the two filter implementations are extensionally equal: on
every manifest text and identifier pair they return the same list. -/
theorem c9_filters_extensionally_equal (m : Str) (sub_id : Str) (ses_id : Str) :
    get_func_list m sub_id ses_id = get_dwi_list m sub_id ses_id := by
  rw [get_func_list_eq_filter_map, get_dwi_list_eq_filter_map]

/-- C10: with empty identifiers the filter does not fail: the
empty-string containment check is vacuously true, so with both
identifiers empty every manifest line's basename is retained, each
prefixed with the empty session id and `/`. -/
theorem c10_empty_ids_retain_all (m : Str) (s : Str) :
    pyIn [] s = true
    ∧ get_func_list m [] [] = (splitlines m).map (fun line => '/' :: basename line)
    ∧ get_dwi_list m [] [] = (splitlines m).map (fun line => '/' :: basename line) := by
  have hall : (splitlines m).filter (lineMatches [] []) = splitlines m :=
    List.filter_eq_self.mpr (fun line _ => by simp [lineMatches, pyIn_nil])
  refine ⟨pyIn_nil s, ?_, ?_⟩
  · rw [get_func_list_eq_filter_map, hall]
    rfl
  · rw [get_dwi_list_eq_filter_map, hall]
    rfl

end Fmaps
